import Mathlib

/-!
Verification of the SvgConverter element-processing core.

The embedding covers:
* the path data model (2D points, affine transforms, path commands);
* the element/attribute registration lists from `src/conversion.cpp`;
* the `ShapeContext` state machine from `shape.h`: geometry events,
  attribute-set events for `fill`, `stroke` and `stroke-dasharray`, and the
  `on_exit_element` finalization that transforms the accumulated path,
  resolves a pattern fill reference and hands a `DashedPath` to the exporter.

Coordinates are modelled as rationals (the source uses `double`; the spec
describes them as real-valued and all claims here are exact-arithmetic
properties of the data flow, not of rounding).
-/

namespace SvgConverter

/-- A 2D point. Modelled from the spec: the point type lives in the repo's
`math_defs.h`, which only declares Eigen aliases; the spec describes a point
as a pair of real-valued coordinates. -/
structure Point where
  x : ℚ
  y : ℚ
  deriving DecidableEq

/-- An affine 2D transform `p ↦ A p + t` with `A = [[a, b], [c, d]]` and
`t = (tx, ty)`. Modelled from the spec: the repo's transform type is an Eigen
affine transform declared in `math_defs.h` (not under `src/`); the spec
describes it as an affine 2D matrix composed multiplicatively. -/
structure Transform where
  a : ℚ
  b : ℚ
  c : ℚ
  d : ℚ
  tx : ℚ
  ty : ℚ
  deriving DecidableEq

/-- Apply an affine transform to a point. -/
def Transform.apply (T : Transform) (p : Point) : Point :=
  ⟨T.a * p.x + T.b * p.y + T.tx, T.c * p.x + T.d * p.y + T.ty⟩

/-- Composition `T2 ∘ T1` (first `T1`, then `T2`), as matrix product of the
corresponding homogeneous matrices. -/
def Transform.comp (T2 T1 : Transform) : Transform :=
  ⟨T2.a * T1.a + T2.b * T1.c,
   T2.a * T1.b + T2.b * T1.d,
   T2.c * T1.a + T2.d * T1.c,
   T2.c * T1.b + T2.d * T1.d,
   T2.a * T1.tx + T2.b * T1.ty + T2.tx,
   T2.c * T1.tx + T2.d * T1.ty + T2.ty⟩

/-- Affine inverse, as computed by Eigen's `inverse(AffineCompact)` in
`on_exit_element`. Total over ℚ (division by a zero determinant yields the
junk value 0, mirroring that Eigen performs no singularity check). -/
def Transform.inverse (T : Transform) : Transform :=
  let det := T.a * T.d - T.b * T.c
  let ia := T.d / det
  let ib := -T.b / det
  let ic := -T.c / det
  let idd := T.a / det
  ⟨ia, ib, ic, idd, -(ia * T.tx + ib * T.ty), -(ic * T.tx + idd * T.ty)⟩

/-- A single path command, as stored by the repo's path model
(`MoveCommand`, `LineCommand`, `BezierCommand`, `CloseSubpathCommand`). -/
inductive PathCommand where
  | move (p : Point)
  | line (p : Point)
  | cubicBezier (p c1 c2 : Point)
  | closeSubpath
  deriving DecidableEq

/-- A path is the ordered sequence of its commands. -/
abbrev Path := List PathCommand

/-- Transform one command: every coordinate-bearing point is rewritten,
`closeSubpath` carries no coordinates and is unaffected. Modelled from the
spec: `path.h` is not under `src/`; the spec says `transform(T)` rewrites
every point-bearing command under `T` and leaves `CloseSubpath` alone. -/
def PathCommand.transform (T : Transform) : PathCommand → PathCommand
  | .move p => .move (T.apply p)
  | .line p => .line (T.apply p)
  | .cubicBezier p c1 c2 => .cubicBezier (T.apply p) (T.apply c1) (T.apply c2)
  | .closeSubpath => .closeSubpath

/-- In-place transform of a whole path (modelled functionally). -/
def Path.transform (T : Transform) (path : Path) : Path :=
  path.map (PathCommand.transform T)

/-- Append one command. Modelled from the spec: `push_command(cmd)` appends
one PathCommand, no validation performed (`path.h` is not under `src/`). -/
def Path.pushCommand (path : Path) (cmd : PathCommand) : Path :=
  path ++ [cmd]

theorem transform_apply_comp (T2 T1 : Transform) (p : Point) :
    (T2.comp T1).apply p = T2.apply (T1.apply p) := by
  simp only [Transform.comp, Transform.apply, Point.mk.injEq]
  constructor <;> ring

theorem pathCommand_transform_comp (T2 T1 : Transform) (c : PathCommand) :
    PathCommand.transform T2 (PathCommand.transform T1 c) =
      PathCommand.transform (T2.comp T1) c := by
  cases c <;> simp [PathCommand.transform, transform_apply_comp]

/-- Claim C6: for all transforms T1, T2 and every path P, applying the path
transform with T1 and then with T2 yields the same path as applying the
single composed transform T2∘T1 once. -/
theorem path_transform_composes (T1 T2 : Transform) (P : Path) :
    Path.transform T2 (Path.transform T1 P) = Path.transform (T2.comp T1) P := by
  induction P with
  | nil => rfl
  | cons c cs ih =>
      simp only [Path.transform, List.map_cons] at ih ⊢
      rw [pathCommand_transform_comp, ih]

/-! ### Element and attribute registration (`src/conversion.cpp`) -/

/-- The SVG element kinds relevant to the registration lists: the seven
svgpp shape elements, the structural elements, `pattern`, and a sample of
element kinds the document may contain but the core never registers. -/
inductive SvgElement where
  | svg
  | g
  | circle
  | ellipse
  | line
  | path
  | polygon
  | polyline
  | rect
  | pattern
  | defs
  | text
  | use
  | linearGradient
  deriving DecidableEq, Fintype

/-- `svgpp::traits::shape_elements`: the shape-bearing elements. -/
def shape_elements : List SvgElement :=
  [.circle, .ellipse, .line, .path, .polygon, .polyline, .rect]

/-- The SVG attribute kinds relevant to the registration lists: the shape
geometry attributes, `transform`, the paint attributes handled by
`ShapeContext`, and a sample of attributes the core never registers. -/
inductive SvgAttribute where
  | transform
  | fill
  | stroke
  | strokeDasharray
  | d
  | x
  | y
  | width
  | height
  | rx
  | ry
  | cx
  | cy
  | r
  | x1
  | y1
  | x2
  | y2
  | points
  | strokeWidth
  | opacity
  | id
  deriving DecidableEq, Fintype

/-- `svgpp::traits::shapes_attributes_by_element`: the geometry attributes
of the shape elements (path data, rect/circle/ellipse/line geometry,
polyline/polygon points). -/
def shapes_attributes_by_element : List SvgAttribute :=
  [.d, .x, .y, .width, .height, .rx, .ry, .cx, .cy, .r,
   .x1, .y1, .x2, .y2, .points]

/-- `processed_elements_t` in `conversion.cpp`: `Concat` of the shape
elements with the structural elements `svg` and `g`. -/
def processed_elements_t : List SvgElement :=
  shape_elements ++ [.svg, .g]

/-- `processed_attributes_t` in `conversion.cpp`: `Concat` of the shape
geometry attributes with the singleton set containing `transform`. -/
def processed_attributes_t : List SvgAttribute :=
  shapes_attributes_by_element ++ [.transform]

/-- The `ProcessedElements` override used by
`ShapeContext::on_exit_element` for the fill-resolution sub-traversal:
only the `pattern` element is processed there. -/
def pattern_sub_traversal_elements : List SvgElement :=
  [.pattern]

/-! ### The `ShapeContext` state machine (`shape.h`) -/

/-- Severity of a log line emitted through the spdlog logger. -/
inductive LogLevel where
  | warn
  | debug
  deriving DecidableEq

/-- One log line: its severity and its formatted message. -/
structure LogMessage where
  level : LogLevel
  message : String
  deriving DecidableEq

/-- `detail::warn_unsupported_paint_server`, general overload: a warning
naming the attribute. -/
def warn_unsupported_paint_server (attrName : String) : LogMessage :=
  ⟨.warn, "Unsupported value type for attribute " ++ attrName⟩

/-- `detail::warn_unsupported_paint_server`, overload for a plain color
value (`int` plus `skip_icc_color`): demoted to a debug line. -/
def warn_unsupported_paint_server_color (attrName : String) : LogMessage :=
  ⟨.debug, "Ignoring color value for attribute " ++ attrName⟩

/-- The value kinds a `fill`/`stroke` attribute-set event can carry, as
discriminated by the `set` overloads of `ShapeContext`:
`none` is `svgpp::tag::value::none`, `iriFragment` is
`svgpp::tag::iri_fragment` with the referenced id, `color` is a plain color
(the `int` + `skip_icc_color` overload) and `unsupported` stands for every
other value kind (gradients etc.), which only the variadic catch-all
overload accepts. -/
inductive PaintValue where
  | none
  | iriFragment (id : String)
  | color (c : ℤ)
  | unsupported
  deriving DecidableEq

/-- The value kinds a `stroke-dasharray` attribute-set event can carry:
`svgpp::tag::value::none` or a range of lengths. -/
inductive DashValue where
  | none
  | list (values : List ℚ)
  deriving DecidableEq

/-- The mutable per-shape state of `ShapeContext`, with the member defaults
from the class definition: empty path, empty dasharray, empty fill IRI and
`stroke_ = true`. -/
structure ShapeContext where
  path_ : Path
  dasharray_ : List ℚ
  fill_fragment_iri_ : String
  stroke_ : Bool
  deriving DecidableEq

/-- A freshly constructed `ShapeContext` (the constructor only wires the
parent context; every member keeps its default initializer). -/
def ShapeContext.init : ShapeContext :=
  ⟨[], [], "", true⟩

/-- The `set` overloads for `stroke-dasharray`: `none` clears the stored
dasharray, a range replaces it entirely. -/
def ShapeContext.set_stroke_dasharray (ctx : ShapeContext) :
    DashValue → ShapeContext
  | .none => { ctx with dasharray_ := [] }
  | .list vs => { ctx with dasharray_ := vs }

/-- The `set` overloads for `stroke`: `none` sets `stroke_ = false`; every
other value kind falls into the variadic overload, which only logs (debug
for a plain color, warning otherwise) and leaves the state unchanged. -/
def ShapeContext.set_stroke (ctx : ShapeContext) :
    PaintValue → ShapeContext × List LogMessage
  | .none => ({ ctx with stroke_ := false }, [])
  | .iriFragment _ => (ctx, [warn_unsupported_paint_server "stroke"])
  | .color _ => (ctx, [warn_unsupported_paint_server_color "stroke"])
  | .unsupported => (ctx, [warn_unsupported_paint_server "stroke"])

/-- The `set` overloads for `fill`: `none` clears the fill IRI, an IRI
fragment stores the referenced id; a plain color or any other value kind
only logs and leaves the state unchanged. -/
def ShapeContext.set_fill (ctx : ShapeContext) :
    PaintValue → ShapeContext × List LogMessage
  | .none => ({ ctx with fill_fragment_iri_ := "" }, [])
  | .iriFragment id => ({ ctx with fill_fragment_iri_ := id }, [])
  | .color _ => (ctx, [warn_unsupported_paint_server_color "fill"])
  | .unsupported => (ctx, [warn_unsupported_paint_server "fill"])

/-- One traversal-engine event delivered to a live `ShapeContext`:
the four geometry events (svgpp's minimal path policy) and the three
attribute-set events the context handles. -/
inductive Event where
  | path_move_to (x y : ℚ)
  | path_line_to (x y : ℚ)
  | path_cubic_bezier_to (x1 y1 x2 y2 x y : ℚ)
  | path_close_subpath
  | set_stroke_dasharray (v : DashValue)
  | set_stroke (v : PaintValue)
  | set_fill (v : PaintValue)
  deriving DecidableEq

/-- Handle one event: the geometry handlers append the corresponding
command via `push_command`; the attribute handlers dispatch to the `set`
overloads. Also returns the log lines the handler emits. -/
def ShapeContext.step (ctx : ShapeContext) :
    Event → ShapeContext × List LogMessage
  | .path_move_to x y =>
      ({ ctx with path_ := ctx.path_.pushCommand (.move ⟨x, y⟩) }, [])
  | .path_line_to x y =>
      ({ ctx with path_ := ctx.path_.pushCommand (.line ⟨x, y⟩) }, [])
  | .path_cubic_bezier_to x1 y1 x2 y2 x y =>
      ({ ctx with
          path_ := ctx.path_.pushCommand
            (.cubicBezier ⟨x, y⟩ ⟨x1, y1⟩ ⟨x2, y2⟩) }, [])
  | .path_close_subpath =>
      ({ ctx with path_ := ctx.path_.pushCommand .closeSubpath }, [])
  | .set_stroke_dasharray v => (ctx.set_stroke_dasharray v, [])
  | .set_stroke v => ctx.set_stroke v
  | .set_fill v => ctx.set_fill v

/-- Run a sequence of events, collecting the emitted log lines. -/
def ShapeContext.run (ctx : ShapeContext) :
    List Event → ShapeContext × List LogMessage
  | [] => (ctx, [])
  | e :: es =>
      let r := ctx.step e
      let rest := ShapeContext.run r.1 es
      (rest.1, r.2 ++ rest.2)

/-! ### Finalization (`ShapeContext::on_exit_element`) -/

/-- The finalized record handed to the exporter: the transformed path, the
accumulated dasharray and the inverse of the composed transform
(`dashes.h` defines the struct; its three fields are constructed
explicitly at the `on_exit_element` call site in `shape.h`). -/
structure DashedPath where
  path : Path
  dashes : List ℚ
  inverseTransform : Transform
  deriving DecidableEq

/-- Modelled from the spec: the document-wide id lookup lives in `base.h`,
not under `src/`; the spec specifies `find_by_id(identifier) -> optional
node`, absence being a normal non-fatal outcome. A document is modelled by
the ids it contains. -/
abbrev Document := List String

/-- Modelled from the spec: id lookup returning the referenced node (the
node is identified by its id) or nothing when the id is absent. -/
def Document.find_by_id (doc : Document) (id : String) : Option String :=
  if id ∈ doc then some id else Option.none

/-- An externally observable side effect of finalization: a
fill-resolution sub-traversal over a referenced pattern node (seeded with
the shape's outline path), or a `plot` call on the exporter. -/
inductive Effect where
  | patternSubTraversal (node : String) (outline : Path)
  | plot (record : DashedPath)
  deriving DecidableEq

/-- `ShapeContext::on_exit_element`: first the composed root transform is
applied to the accumulated path in place; then, if the fill IRI is
non-empty, the id is looked up and, when found, the referenced pattern
element is loaded in a sub-traversal seeded with this context (whose path
is already transformed); finally, if `stroke_` is set, a `DashedPath` of
the transformed path, the dasharray and the inverse transform is handed to
`exporter_.plot`. Modelled from the spec: `load_referenced_element` on an
absent lookup result performs nothing (`traversal.h`/`base.h` are not
under `src/`; the spec states a missing id skips fill resolution silently
with no error). Returns the post-transform state and the effect list in
emission order. -/
def ShapeContext.on_exit_element (ctx : ShapeContext) (to_root : Transform)
    (doc : Document) : ShapeContext × List Effect :=
  let ctx' := { ctx with path_ := Path.transform to_root ctx.path_ }
  let fillEffects :=
    if ctx'.fill_fragment_iri_ = "" then []
    else
      match doc.find_by_id ctx'.fill_fragment_iri_ with
      | some node => [Effect.patternSubTraversal node ctx'.path_]
      | Option.none => []
  let strokeEffects :=
    if ctx'.stroke_ then
      [Effect.plot ⟨ctx'.path_, ctx'.dasharray_, to_root.inverse⟩]
    else []
  (ctx', fillEffects ++ strokeEffects)

/-- Whether an effect is an exporter `plot` call. -/
def Effect.isPlot : Effect → Bool
  | .plot _ => true
  | _ => false

/-- The records handed to the exporter, in order. -/
def plotRecords (effects : List Effect) : List DashedPath :=
  effects.filterMap fun e =>
    match e with
    | .plot dp => some dp
    | _ => Option.none

/-- The pattern sub-traversals performed, in order, each with the
referenced node and the outline it was seeded with. -/
def patternTraversals (effects : List Effect) : List (String × Path) :=
  effects.filterMap fun e =>
    match e with
    | .patternSubTraversal n p => some (n, p)
    | _ => Option.none

/-- The path command a geometry event appends, or nothing for an
attribute-set event. -/
def Event.toPathCommand : Event → Option PathCommand
  | .path_move_to x y => some (.move ⟨x, y⟩)
  | .path_line_to x y => some (.line ⟨x, y⟩)
  | .path_cubic_bezier_to x1 y1 x2 y2 x y =>
      some (.cubicBezier ⟨x, y⟩ ⟨x1, y1⟩ ⟨x2, y2⟩)
  | .path_close_subpath => some .closeSubpath
  | _ => Option.none

/-- Whether an event is one of the four geometry events. -/
def Event.isGeometry (e : Event) : Bool :=
  e.toPathCommand.isSome

/-! ### Helper lemmas -/

theorem plotRecords_on_exit (ctx : ShapeContext) (T : Transform)
    (doc : Document) :
    plotRecords (ctx.on_exit_element T doc).2 =
      if ctx.stroke_ then
        [⟨Path.transform T ctx.path_, ctx.dasharray_, T.inverse⟩]
      else [] := by
  by_cases hf : ctx.fill_fragment_iri_ = "" <;>
    cases hfind : Document.find_by_id doc ctx.fill_fragment_iri_ <;>
      cases hs : ctx.stroke_ <;>
        simp [ShapeContext.on_exit_element, plotRecords, hf, hfind, hs]

theorem patternTraversals_on_exit (ctx : ShapeContext) (T : Transform)
    (doc : Document) :
    patternTraversals (ctx.on_exit_element T doc).2 =
      if ctx.fill_fragment_iri_ = "" then []
      else
        match doc.find_by_id ctx.fill_fragment_iri_ with
        | some n => [(n, Path.transform T ctx.path_)]
        | Option.none => [] := by
  by_cases hf : ctx.fill_fragment_iri_ = "" <;>
    cases hfind : Document.find_by_id doc ctx.fill_fragment_iri_ <;>
      cases hs : ctx.stroke_ <;>
        simp [ShapeContext.on_exit_element, patternTraversals, hf, hfind, hs]

theorem step_preserves_stroke_false (ctx : ShapeContext) (e : Event)
    (h : ctx.stroke_ = false) : (ctx.step e).1.stroke_ = false := by
  cases e with
  | path_move_to x y => exact h
  | path_line_to x y => exact h
  | path_cubic_bezier_to x1 y1 x2 y2 x y => exact h
  | path_close_subpath => exact h
  | set_stroke_dasharray v => cases v <;> exact h
  | set_stroke v => cases v <;> first | rfl | exact h
  | set_fill v => cases v <;> exact h

theorem run_preserves_stroke_false (evs : List Event) :
    ∀ ctx : ShapeContext, ctx.stroke_ = false →
      (ctx.run evs).1.stroke_ = false := by
  induction evs with
  | nil => intro ctx h; exact h
  | cons e es ih =>
      intro ctx h
      exact ih (ctx.step e).1 (step_preserves_stroke_false ctx e h)

theorem run_stroke_none_mem (evs : List Event) :
    ∀ ctx : ShapeContext, Event.set_stroke PaintValue.none ∈ evs →
      (ctx.run evs).1.stroke_ = false := by
  induction evs with
  | nil => intro ctx h; cases h
  | cons e es ih =>
      intro ctx h
      rcases List.mem_cons.mp h with he | hes
      · subst he
        exact run_preserves_stroke_false es _ rfl
      · exact ih (ctx.step e).1 hes

theorem run_geometry (evs : List Event) :
    ∀ ctx : ShapeContext, (∀ e ∈ evs, e.isGeometry = true) →
      ctx.run evs =
        ({ ctx with path_ := ctx.path_ ++ evs.filterMap Event.toPathCommand },
         []) := by
  induction evs with
  | nil => intro ctx _; simp [ShapeContext.run]
  | cons e es ih =>
      intro ctx h
      have he : e.isGeometry = true := h e (List.mem_cons_self e es)
      have hes : ∀ x ∈ es, x.isGeometry = true :=
        fun x hx => h x (List.mem_cons_of_mem e hx)
      cases e with
      | path_move_to x y =>
          simp [ShapeContext.run, ShapeContext.step, Path.pushCommand,
                ih _ hes, Event.toPathCommand]
      | path_line_to x y =>
          simp [ShapeContext.run, ShapeContext.step, Path.pushCommand,
                ih _ hes, Event.toPathCommand]
      | path_cubic_bezier_to x1 y1 x2 y2 x y =>
          simp [ShapeContext.run, ShapeContext.step, Path.pushCommand,
                ih _ hes, Event.toPathCommand]
      | path_close_subpath =>
          simp [ShapeContext.run, ShapeContext.step, Path.pushCommand,
                ih _ hes, Event.toPathCommand]
      | set_stroke_dasharray v =>
          exact absurd he (by simp [Event.isGeometry, Event.toPathCommand])
      | set_stroke v =>
          exact absurd he (by simp [Event.isGeometry, Event.toPathCommand])
      | set_fill v =>
          exact absurd he (by simp [Event.isGeometry, Event.toPathCommand])

/-! ### Claim theorems -/

/-- Claim C1: for every shape whose fill reference id is set and non-empty
but maps to no node in the document id-lookup, element-exit finalization
performs no pattern sub-traversal and raises no error: fill resolution is
skipped silently and the rest of finalization (stroke plotting, when
enabled) proceeds normally. -/
theorem dangling_fill_reference_skipped (ctx : ShapeContext)
    (to_root : Transform) (doc : Document)
    (hset : ctx.fill_fragment_iri_ ≠ "")
    (hmiss : doc.find_by_id ctx.fill_fragment_iri_ = Option.none) :
    patternTraversals (ctx.on_exit_element to_root doc).2 = [] ∧
    plotRecords (ctx.on_exit_element to_root doc).2 =
      (if ctx.stroke_ then
        [⟨Path.transform to_root ctx.path_, ctx.dasharray_, to_root.inverse⟩]
       else []) := by
  refine ⟨?_, plotRecords_on_exit ctx to_root doc⟩
  rw [patternTraversals_on_exit]
  simp [hset, hmiss]

theorem dangling_fill_reference_skipped_witness :
    ((⟨[PathCommand.move ⟨1, 2⟩], [4, 2], "missing", true⟩ :
        ShapeContext).fill_fragment_iri_ ≠ "" ∧
     Document.find_by_id ["pat1"] "missing" = Option.none) ∧
    (patternTraversals
        ((⟨[PathCommand.move ⟨1, 2⟩], [4, 2], "missing", true⟩ :
          ShapeContext).on_exit_element ⟨1, 0, 0, 1, 5, 5⟩ ["pat1"]).2 = [] ∧
     plotRecords
        ((⟨[PathCommand.move ⟨1, 2⟩], [4, 2], "missing", true⟩ :
          ShapeContext).on_exit_element ⟨1, 0, 0, 1, 5, 5⟩ ["pat1"]).2 =
      (if (⟨[PathCommand.move ⟨1, 2⟩], [4, 2], "missing", true⟩ :
            ShapeContext).stroke_ then
        [⟨Path.transform ⟨1, 0, 0, 1, 5, 5⟩ [PathCommand.move ⟨1, 2⟩], [4, 2],
          Transform.inverse ⟨1, 0, 0, 1, 5, 5⟩⟩]
       else [])) :=
  ⟨⟨by decide, by decide⟩,
   dangling_fill_reference_skipped _ _ _ (by decide) (by decide)⟩

/-- Claim C2, counterexample: contrary to the claim, the attribute list
registered with the traversal engine in `conversion.cpp` does not contain
`fill`, `stroke` or `stroke-dasharray`. -/
theorem registered_attributes_exclude_paint :
    SvgAttribute.fill ∉ processed_attributes_t ∧
    SvgAttribute.stroke ∉ processed_attributes_t ∧
    SvgAttribute.strokeDasharray ∉ processed_attributes_t := by
  decide

/-- Claim C2 (amended): the element list the core registers is exactly the
shape-bearing elements plus the structural elements `svg` and `g`, and the
attribute list is exactly the shape-geometry attributes plus `transform`
(`fill`, `stroke` and `stroke-dasharray` are not registered); `pattern` is
absent from the registered elements and is processed only through the
fill-resolution sub-traversal's element list. -/
theorem registered_elements_and_attributes_exact :
    (∀ e : SvgElement, e ∈ processed_elements_t ↔
      (e ∈ shape_elements ∨ e = SvgElement.svg ∨ e = SvgElement.g)) ∧
    (∀ a : SvgAttribute, a ∈ processed_attributes_t ↔
      (a ∈ shapes_attributes_by_element ∨ a = SvgAttribute.transform)) ∧
    SvgAttribute.fill ∉ processed_attributes_t ∧
    SvgAttribute.stroke ∉ processed_attributes_t ∧
    SvgAttribute.strokeDasharray ∉ processed_attributes_t ∧
    SvgElement.pattern ∉ processed_elements_t ∧
    pattern_sub_traversal_elements = [SvgElement.pattern] := by
  decide

/-- Claim C3: on element-exit of a shape, finalization (1) applies the
composed transform in place to the accumulated path, (2) resolves the fill
over the transformed outline when a fill reference is set, and (3) when
stroke is enabled hands exactly one `DashedPath` — transformed path,
accumulated dasharray, inverse composed transform — to the exporter's
`plot`, with fill resolution preceding the plot call; when stroke is
disabled no record is emitted. -/
theorem on_exit_element_finalization (ctx : ShapeContext)
    (to_root : Transform) (doc : Document) :
    (ctx.on_exit_element to_root doc).1.path_ =
      Path.transform to_root ctx.path_ ∧
    patternTraversals (ctx.on_exit_element to_root doc).2 =
      (if ctx.fill_fragment_iri_ = "" then []
       else
         match doc.find_by_id ctx.fill_fragment_iri_ with
         | some n => [(n, Path.transform to_root ctx.path_)]
         | Option.none => []) ∧
    plotRecords (ctx.on_exit_element to_root doc).2 =
      (if ctx.stroke_ then
        [⟨Path.transform to_root ctx.path_, ctx.dasharray_, to_root.inverse⟩]
       else []) ∧
    (ctx.on_exit_element to_root doc).2 =
      (ctx.on_exit_element to_root doc).2.filter (fun e => !e.isPlot) ++
        (ctx.on_exit_element to_root doc).2.filter Effect.isPlot := by
  refine ⟨rfl, patternTraversals_on_exit ctx to_root doc,
          plotRecords_on_exit ctx to_root doc, ?_⟩
  by_cases hf : ctx.fill_fragment_iri_ = "" <;>
    cases hfind : Document.find_by_id doc ctx.fill_fragment_iri_ <;>
      cases hs : ctx.stroke_ <;>
        simp [ShapeContext.on_exit_element, Effect.isPlot, hf, hfind, hs]

/-- Claim C4: a shape that receives a `stroke = none` attribute-set event
before element-exit never triggers the exporter's `plot`, regardless of
fill state; fill resolution (including a pattern sub-traversal for a valid
fill reference) still occurs during finalization. -/
theorem stroke_none_suppresses_plot (evs : List Event) (to_root : Transform)
    (doc : Document) (h : Event.set_stroke PaintValue.none ∈ evs) :
    plotRecords
      (((ShapeContext.init.run evs).1).on_exit_element to_root doc).2 = [] ∧
    patternTraversals
      (((ShapeContext.init.run evs).1).on_exit_element to_root doc).2 =
      (if (ShapeContext.init.run evs).1.fill_fragment_iri_ = "" then []
       else
         match
           Document.find_by_id doc
             (ShapeContext.init.run evs).1.fill_fragment_iri_ with
         | some n =>
             [(n, Path.transform to_root (ShapeContext.init.run evs).1.path_)]
         | Option.none => []) := by
  have hs := run_stroke_none_mem evs ShapeContext.init h
  refine ⟨?_, patternTraversals_on_exit _ _ _⟩
  rw [plotRecords_on_exit]
  simp [hs]

theorem stroke_none_suppresses_plot_witness :
    Event.set_stroke PaintValue.none ∈
      [Event.set_fill (PaintValue.iriFragment "pat1"),
       Event.set_stroke PaintValue.none] ∧
    (plotRecords
      (((ShapeContext.init.run
          [Event.set_fill (PaintValue.iriFragment "pat1"),
           Event.set_stroke PaintValue.none]).1).on_exit_element
        ⟨2, 0, 0, 2, 0, 0⟩ ["pat1"]).2 = [] ∧
    patternTraversals
      (((ShapeContext.init.run
          [Event.set_fill (PaintValue.iriFragment "pat1"),
           Event.set_stroke PaintValue.none]).1).on_exit_element
        ⟨2, 0, 0, 2, 0, 0⟩ ["pat1"]).2 =
      (if (ShapeContext.init.run
            [Event.set_fill (PaintValue.iriFragment "pat1"),
             Event.set_stroke PaintValue.none]).1.fill_fragment_iri_ = ""
       then []
       else
         match
           Document.find_by_id ["pat1"]
             (ShapeContext.init.run
               [Event.set_fill (PaintValue.iriFragment "pat1"),
                Event.set_stroke PaintValue.none]).1.fill_fragment_iri_ with
         | some n =>
             [(n, Path.transform ⟨2, 0, 0, 2, 0, 0⟩
                 (ShapeContext.init.run
                   [Event.set_fill (PaintValue.iriFragment "pat1"),
                    Event.set_stroke PaintValue.none]).1.path_)]
         | Option.none => [])) :=
  ⟨by decide, stroke_none_suppresses_plot _ _ _ (by decide)⟩

/-- Whether a `stroke` attribute value kind has a dedicated `set` overload
in `ShapeContext` (only `svgpp::tag::value::none` does; every other kind
lands in the variadic catch-all). -/
def stroke_handled_specifically : PaintValue → Bool
  | .none => true
  | _ => false

/-- Whether a `fill` attribute value kind has a dedicated `set` overload in
`ShapeContext` (`none` and an IRI fragment do). -/
def fill_handled_specifically : PaintValue → Bool
  | .none => true
  | .iriFragment _ => true
  | _ => false

/-- The log level `detail::warn_unsupported_paint_server` picks for an
unsupported value kind: debug for a plain color, warning otherwise. -/
def unsupported_log_level : PaintValue → LogLevel
  | .color _ => .debug
  | _ => .warn

/-- Claim C5: a `fill` or `stroke` attribute-set event carrying an
unsupported value kind only emits a single log message (warning in
general, debug when the value is a simple color) and leaves the resolved
attribute state entirely unchanged; no failure is propagated. -/
theorem unsupported_paint_value_only_logs (ctx : ShapeContext)
    (v w : PaintValue)
    (hv : stroke_handled_specifically v = false)
    (hw : fill_handled_specifically w = false) :
    (ctx.set_stroke v).1 = ctx ∧
    (ctx.set_stroke v).2.map LogMessage.level = [unsupported_log_level v] ∧
    (ctx.set_fill w).1 = ctx ∧
    (ctx.set_fill w).2.map LogMessage.level = [unsupported_log_level w] := by
  cases v <;> cases w <;>
    simp_all [ShapeContext.set_stroke, ShapeContext.set_fill,
      stroke_handled_specifically, fill_handled_specifically,
      unsupported_log_level, warn_unsupported_paint_server,
      warn_unsupported_paint_server_color]

theorem unsupported_paint_value_only_logs_witness :
    (stroke_handled_specifically (PaintValue.iriFragment "grad1") = false ∧
     fill_handled_specifically (PaintValue.color 255) = false) ∧
    ((ShapeContext.init.set_stroke (PaintValue.iriFragment "grad1")).1 =
      ShapeContext.init ∧
     (ShapeContext.init.set_stroke
        (PaintValue.iriFragment "grad1")).2.map LogMessage.level =
      [unsupported_log_level (PaintValue.iriFragment "grad1")] ∧
     (ShapeContext.init.set_fill (PaintValue.color 255)).1 =
      ShapeContext.init ∧
     (ShapeContext.init.set_fill (PaintValue.color 255)).2.map
        LogMessage.level =
      [unsupported_log_level (PaintValue.color 255)]) :=
  ⟨⟨by decide, by decide⟩,
   unsupported_paint_value_only_logs _ _ _ (by decide) (by decide)⟩

/-- Claim C7: a sequence of geometry events delivered to a shape context
appends exactly the corresponding path commands, in exactly the order the
events were received, with no validation, reordering, insertion or
dropping; no other field changes and nothing is logged. -/
theorem geometry_events_recorded_in_order (ctx : ShapeContext)
    (evs : List Event) (h : ∀ e ∈ evs, e.isGeometry = true) :
    (ctx.run evs).1.path_ = ctx.path_ ++ evs.filterMap Event.toPathCommand ∧
    (ctx.run evs).1.dasharray_ = ctx.dasharray_ ∧
    (ctx.run evs).1.fill_fragment_iri_ = ctx.fill_fragment_iri_ ∧
    (ctx.run evs).1.stroke_ = ctx.stroke_ ∧
    (ctx.run evs).2 = [] := by
  rw [run_geometry evs ctx h]
  exact ⟨rfl, rfl, rfl, rfl, rfl⟩

theorem geometry_events_recorded_in_order_witness :
    (∀ e ∈ [Event.path_move_to 0 0, Event.path_line_to 10 0,
            Event.path_cubic_bezier_to 1 2 3 4 5 6,
            Event.path_close_subpath], e.isGeometry = true) ∧
    ((ShapeContext.init.run
        [Event.path_move_to 0 0, Event.path_line_to 10 0,
         Event.path_cubic_bezier_to 1 2 3 4 5 6,
         Event.path_close_subpath]).1.path_ =
      ShapeContext.init.path_ ++
        [Event.path_move_to 0 0, Event.path_line_to 10 0,
         Event.path_cubic_bezier_to 1 2 3 4 5 6,
         Event.path_close_subpath].filterMap Event.toPathCommand ∧
     (ShapeContext.init.run
        [Event.path_move_to 0 0, Event.path_line_to 10 0,
         Event.path_cubic_bezier_to 1 2 3 4 5 6,
         Event.path_close_subpath]).1.dasharray_ =
      ShapeContext.init.dasharray_ ∧
     (ShapeContext.init.run
        [Event.path_move_to 0 0, Event.path_line_to 10 0,
         Event.path_cubic_bezier_to 1 2 3 4 5 6,
         Event.path_close_subpath]).1.fill_fragment_iri_ =
      ShapeContext.init.fill_fragment_iri_ ∧
     (ShapeContext.init.run
        [Event.path_move_to 0 0, Event.path_line_to 10 0,
         Event.path_cubic_bezier_to 1 2 3 4 5 6,
         Event.path_close_subpath]).1.stroke_ = ShapeContext.init.stroke_ ∧
     (ShapeContext.init.run
        [Event.path_move_to 0 0, Event.path_line_to 10 0,
         Event.path_cubic_bezier_to 1 2 3 4 5 6,
         Event.path_close_subpath]).2 = []) :=
  ⟨by decide, geometry_events_recorded_in_order _ _ (by decide)⟩

/-- Claim C8: attribute resolution is last-write-wins: after any prior
state, `stroke-dasharray = none` yields an empty dasharray (and a solid,
dash-free record at finalize if stroke is enabled), a dasharray list event
replaces the stored values entirely, and `fill = none` clears any
previously set fill reference so a later finalize performs no pattern
lookup. -/
theorem attribute_resolution_last_write_wins (ctx : ShapeContext)
    (vs : List ℚ) (to_root : Transform) (doc : Document) :
    (ctx.set_stroke_dasharray DashValue.none).dasharray_ = [] ∧
    (plotRecords ((ctx.set_stroke_dasharray DashValue.none).on_exit_element
        to_root doc).2).map DashedPath.dashes =
      (if ctx.stroke_ then [([] : List ℚ)] else []) ∧
    (ctx.set_stroke_dasharray (DashValue.list vs)).dasharray_ = vs ∧
    ((ctx.set_fill PaintValue.none).1).fill_fragment_iri_ = "" ∧
    patternTraversals
      (((ctx.set_fill PaintValue.none).1).on_exit_element to_root doc).2 =
      [] := by
  refine ⟨rfl, ?_, rfl, rfl, ?_⟩
  · rw [plotRecords_on_exit]
    cases hs : ctx.stroke_ <;> simp [ShapeContext.set_stroke_dasharray, hs]
  · rw [patternTraversals_on_exit]
    simp [ShapeContext.set_fill]

/-- Claim C9: a shape context that receives no attribute-set events
finalizes with the defaults: stroke enabled (exactly one `plot` call), an
empty dasharray (solid stroke) and an empty fill reference (no pattern
lookup or sub-traversal) — the default fill is no fill. -/
theorem default_attribute_state_finalization (evs : List Event)
    (to_root : Transform) (doc : Document)
    (h : ∀ e ∈ evs, e.isGeometry = true) :
    (ShapeContext.init.run evs).1.stroke_ = true ∧
    (ShapeContext.init.run evs).1.dasharray_ = [] ∧
    (ShapeContext.init.run evs).1.fill_fragment_iri_ = "" ∧
    plotRecords
        (((ShapeContext.init.run evs).1).on_exit_element to_root doc).2 =
      [⟨Path.transform to_root (ShapeContext.init.run evs).1.path_, [],
        to_root.inverse⟩] ∧
    patternTraversals
        (((ShapeContext.init.run evs).1).on_exit_element to_root doc).2 =
      [] := by
  have hr : ShapeContext.init.run evs =
      ({ path_ := [] ++ evs.filterMap Event.toPathCommand, dasharray_ := [],
         fill_fragment_iri_ := "", stroke_ := true }, []) :=
    run_geometry evs ShapeContext.init h
  refine ⟨?_, ?_, ?_, ?_, ?_⟩ <;>
    simp [hr, plotRecords_on_exit, patternTraversals_on_exit]

theorem default_attribute_state_finalization_witness :
    (∀ e ∈ [Event.path_move_to 3 4, Event.path_close_subpath],
      e.isGeometry = true) ∧
    ((ShapeContext.init.run
        [Event.path_move_to 3 4, Event.path_close_subpath]).1.stroke_ =
      true ∧
     (ShapeContext.init.run
        [Event.path_move_to 3 4, Event.path_close_subpath]).1.dasharray_ =
      [] ∧
     (ShapeContext.init.run
        [Event.path_move_to 3 4,
         Event.path_close_subpath]).1.fill_fragment_iri_ = "" ∧
     plotRecords
        (((ShapeContext.init.run
            [Event.path_move_to 3 4, Event.path_close_subpath]).1
          ).on_exit_element ⟨1, 0, 0, 1, 0, 0⟩ []).2 =
      [⟨Path.transform ⟨1, 0, 0, 1, 0, 0⟩
          (ShapeContext.init.run
            [Event.path_move_to 3 4, Event.path_close_subpath]).1.path_, [],
        Transform.inverse ⟨1, 0, 0, 1, 0, 0⟩⟩] ∧
     patternTraversals
        (((ShapeContext.init.run
            [Event.path_move_to 3 4, Event.path_close_subpath]).1
          ).on_exit_element ⟨1, 0, 0, 1, 0, 0⟩ []).2 = []) :=
  ⟨by decide, default_attribute_state_finalization _ _ _ (by decide)⟩

/-- Claim C10: stroke suppression is irreversible within a shape's
lifetime: from any state in which the stroke flag is false, no sequence of
further attribute-set or geometry events ever sets it back to true, and
finalization performs no exporter `plot` call. -/
theorem stroke_suppression_irreversible (ctx : ShapeContext)
    (evs : List Event) (to_root : Transform) (doc : Document)
    (h : ctx.stroke_ = false) :
    (ctx.run evs).1.stroke_ = false ∧
    plotRecords (((ctx.run evs).1).on_exit_element to_root doc).2 = [] := by
  have hs := run_preserves_stroke_false evs ctx h
  exact ⟨hs, by rw [plotRecords_on_exit]; simp [hs]⟩

theorem stroke_suppression_irreversible_witness :
    ((⟨[], [], "", false⟩ : ShapeContext).stroke_ = false) ∧
    (((⟨[], [], "", false⟩ : ShapeContext).run
        [Event.set_stroke PaintValue.unsupported, Event.path_line_to 1 1,
         Event.set_fill (PaintValue.iriFragment "p")]).1.stroke_ = false ∧
     plotRecords
        ((((⟨[], [], "", false⟩ : ShapeContext).run
            [Event.set_stroke PaintValue.unsupported,
             Event.path_line_to 1 1,
             Event.set_fill (PaintValue.iriFragment "p")]).1
          ).on_exit_element ⟨1, 0, 0, 1, 0, 0⟩ ["p"]).2 = []) :=
  ⟨by decide, stroke_suppression_irreversible _ _ _ _ (by decide)⟩

end SvgConverter
